import Mathlib

/-!
Verification development for the furniture-trading business-process
application (order lifecycle, derived-document generation, sequence
numbering, payment ledger, auto-analytical rules).

Monetary quantities are modelled as exact rationals (ℚ); the JavaScript
source performs its arithmetic on `number` values obtained through
`parseDecimal`, and the algebraic structure of those computations is what
the definitions below embed.  Timestamps are epoch milliseconds (ℤ).
Entity rows are lists of records; `prisma.X.update({where: {id}})` is
embedded as a map over the list that rewrites the matching row.
-/

namespace Shiv

/-! ## Order lines and totals

From `src/app/api/purchase-orders/route.ts` (POST) and
`src/app/api/sales-orders/[id]/route.ts` (PUT): each incoming line yields
`lineSubtotal = quantity*unitPrice`, `lineTax = lineSubtotal*(taxRate/100)`,
`lineTotal = lineSubtotal + lineTax`, while the loop accumulates
`subtotal += lineSubtotal` and `taxAmount += lineTax`;
afterwards `totalAmount = subtotal + taxAmount`. -/

structure LineInput where
  productId : Nat
  description : String
  quantity : ℚ
  unitPrice : ℚ
  taxRate : ℚ
  analyticalAccountId : Option Nat
deriving DecidableEq, Repr

structure ComputedLine where
  productId : Nat
  description : String
  quantity : ℚ
  unitPrice : ℚ
  taxRate : ℚ
  taxAmount : ℚ
  lineTotal : ℚ
  analyticalAccountId : Option Nat
deriving DecidableEq, Repr

/-- One iteration of the `lines = linesWithAnalytical.map(...)` body. -/
def computeLine (l : LineInput) : ComputedLine :=
  let lineSubtotal := l.quantity * l.unitPrice
  let lineTax := lineSubtotal * (l.taxRate / 100)
  let lineTotal := lineSubtotal + lineTax
  { productId := l.productId
    description := l.description
    quantity := l.quantity
    unitPrice := l.unitPrice
    taxRate := l.taxRate
    taxAmount := lineTax
    lineTotal := lineTotal
    analyticalAccountId := l.analyticalAccountId }

/-- The mapping loop together with its two running accumulators
(`subtotal`, `taxAmount`), exactly as the route handlers run it. -/
def accumLines (ls : List LineInput) : List ComputedLine × ℚ × ℚ :=
  ls.foldl
    (fun acc l =>
      let c := computeLine l
      (acc.1 ++ [c], acc.2.1 + l.quantity * l.unitPrice, acc.2.2 + c.taxAmount))
    ([], 0, 0)

/-! ## Sequence generator (`src/lib/utils.ts`, `getNextSequence`) -/

structure Sequence where
  name : String
  pfx : String
  nextNumber : Nat
  padding : Nat
deriving DecidableEq, Repr

/-- Decimal digits of `n`, most significant first, computed with the
number itself as structural fuel (kernel-computable, unlike the library's
well-founded `Nat.toDigits`). -/
def natDigitsAux : Nat → Nat → List Char
  | 0, _ => []
  | fuel + 1, n => if n = 0 then [] else natDigitsAux fuel (n / 10) ++ [Nat.digitChar (n % 10)]

def natDigits (n : Nat) : List Char :=
  if n = 0 then ['0'] else natDigitsAux n n

/-- `String.padStart(width, '0')` of a decimal numeral. -/
def zeroPad (n : Nat) (width : Nat) : String :=
  let ds := natDigits n
  String.mk (List.replicate (width - ds.length) '0' ++ ds)

/-- The numeric value of an ASCII digit character, `none` otherwise. -/
def digitVal? (c : Char) : Option Nat :=
  if 48 ≤ c.toNat ∧ c.toNat ≤ 57 then some (c.toNat - 48) else none

def parseDigitsAux : List Char → Nat → Nat
  | [], acc => acc
  | c :: cs, acc =>
    match digitVal? c with
    | some d => parseDigitsAux cs (acc * 10 + d)
    | none => acc

/-- JavaScript `parseInt` on a nonnegative numeral: the longest leading
digit run, `none` (NaN) when the string does not start with a digit. -/
def parseIntLeading (s : String) : Option Nat :=
  match s.data with
  | [] => none
  | c :: cs =>
    match digitVal? c with
    | none => none
    | some d => some (parseDigitsAux cs d)

/-- Remove the first occurrence of `p` (JavaScript
`String.prototype.replace` with a string pattern replaces only the first
match). -/
def stripFirst (p : List Char) : List Char → List Char
  | [] => []
  | c :: cs =>
    if p.isPrefixOf (c :: cs) then (c :: cs).drop p.length
    else c :: stripFirst p cs

/-- The `SEQUENCE_DEFAULTS` record from `src/lib/utils.ts`. -/
def seqDefaults (name : String) : Option (String × Nat) :=
  if name = "contact" then some ("CONT", 5)
  else if name = "product" then some ("PROD", 5)
  else if name = "purchaseOrder" then some ("PO", 5)
  else if name = "vendorBill" then some ("BILL", 5)
  else if name = "salesOrder" then some ("SO", 5)
  else if name = "invoice" then some ("INV", 5)
  else if name = "payment" then some ("PAY", 5)
  else if name = "analyticalAccount" then some ("AA", 4)
  else none

/-- `SEQUENCE_DEFAULTS[sequenceName] || { prefix: name.toUpperCase().slice(0,4), padding: 5 }`
(upper-casing and slicing written over the character list so that the
kernel can evaluate them). -/
def defaultsFor (name : String) : String × Nat :=
  (seqDefaults name).getD (String.mk ((name.data.map Char.toUpper).take 4), 5)

/-- `getNextSequence`: look the counter row up (creating it with the
defaults at `nextNumber = 1` when absent), atomically increment it, and
format `prefix + '-' + zeroPad(updated.nextNumber - 1, padding)`. -/
def getNextSequence (name : String) (row : Option Sequence) : String × Sequence :=
  let seq : Sequence :=
    match row with
    | some q => q
    | none =>
      let d := defaultsFor name
      { name := name, pfx := d.1, nextNumber := 1, padding := d.2 }
  let updated := { seq with nextNumber := seq.nextNumber + 1 }
  (updated.pfx ++ "-" ++ zeroPad (updated.nextNumber - 1) updated.padding, updated)

/-! ## Derived-document numbering

The invoice/bill creation code does NOT use the sequence table: it fetches
`findFirst({orderBy: {invoiceNumber: 'desc'}})` (the lexicographically
largest existing number), parses it after stripping the prefix, adds one
and zero-pads to five digits. -/

/-- Lexicographically largest string of a list (the `orderBy ... desc`
query result). -/
def lexMax : List String → Option String
  | [] => none
  | s :: rest =>
    match lexMax rest with
    | none => some s
    | some m => some (if s < m then m else s)

/-- `parseInt(last.replace('INV-', ''))` with `0` when no row exists;
`parseInt` yielding NaN makes the subsequent arithmetic meaningless, so
the embedding maps that case to `0` as well (all stored numbers are
well-formed). -/
def genDocNumber (pfx : String) (existing : List String) : String :=
  let lastNum : Nat :=
    match lexMax existing with
    | none => 0
    | some s =>
      (parseIntLeading (String.mk (stripFirst (pfx ++ "-").data s.data))).getD 0
  pfx ++ "-" ++ zeroPad (lastNum + 1) 5

/-! ## Orders and derived documents

`SalesOrder`/`PurchaseOrder` and `Invoice`/`VendorBill` are structurally
identical (a direction flag apart), so one `Order` and one `DerivedDoc`
record serve both sides; each route handler keeps its own embedding. -/

inductive OrderStatus where
  | DRAFT | SENT | CONFIRMED | CANCELLED
deriving DecidableEq, Repr

inductive DocStatus where
  | DRAFT | POSTED | CANCELLED
deriving DecidableEq, Repr

structure Order where
  id : Nat
  partnerId : Nat
  status : OrderStatus
  orderDate : ℤ
  expectedDate : Option ℤ
  subtotal : ℚ
  taxAmount : ℚ
  totalAmount : ℚ
  lines : List ComputedLine
deriving DecidableEq, Repr

structure DerivedDoc where
  rowId : Nat
  docNumber : String
  partnerId : Nat
  sourceOrderId : Nat
  docDate : ℤ
  dueDate : ℤ
  status : DocStatus
  subtotal : ℚ
  taxAmount : ℚ
  totalAmount : ℚ
  paidAmount : ℚ
  lines : List ComputedLine
deriving DecidableEq, Repr

/-- The rows a route handler touches: the order table and the derived
document table (invoices for sales orders, vendor bills for purchase
orders). -/
structure DB where
  orders : List Order
  docs : List DerivedDoc
deriving DecidableEq, Repr

def findOrder (db : DB) (id : Nat) : Option Order :=
  db.orders.find? (fun o => o.id == id)

/-- `prisma.X.update({where: {id}, data: ...})`: rewrite the matching row. -/
def setOrderWith (db : DB) (id : Nat) (g : Order → Order) : DB :=
  { db with orders := db.orders.map (fun x => if x.id == id then g x else x) }

/-- `prisma.invoice.findFirst({where: {salesOrderId: id}})` count; the
derived-document multiplicity of a source order. -/
def docCount (db : DB) (oid : Nat) : Nat :=
  (db.docs.filter (fun d => d.sourceOrderId == oid)).length

/-- 30 days in epoch milliseconds (`30 * 24 * 60 * 60 * 1000`). -/
def thirtyDays : ℤ := 2592000000

/-- The `prisma.invoice.create` / `prisma.vendorBill.create` payload built
from a confirmed order: header totals copied verbatim, every order line
copied into a fresh derived-document line, `dueDate = order.expectedDate ||
new Date(Date.now() + 30*24*60*60*1000)`, `paidAmount: 0`; the document
number comes from the scan-based generator, the initial status is `POSTED`
in the sales PATCH route and `DRAFT` in the vendor confirm route. -/
def mkDerivedDoc (rowId : Nat) (pfx : String) (st : DocStatus) (o : Order)
    (now : ℤ) (existingNumbers : List String) : DerivedDoc :=
  { rowId := rowId
    docNumber := genDocNumber pfx existingNumbers
    partnerId := o.partnerId
    sourceOrderId := o.id
    docDate := now
    dueDate := o.expectedDate.getD (now + thirtyDays)
    status := st
    subtotal := o.subtotal
    taxAmount := o.taxAmount
    totalAmount := o.totalAmount
    paidAmount := 0
    lines := o.lines }

/-- `PATCH /api/sales-orders/[id]` — update the status to whatever the
body carries (no transition validation), then, when the new status is
`CONFIRMED` and no invoice references this order yet, create one.  The
first component is the error message of a non-2xx response; on error no
row changes. -/
def patchSalesStatus (db : DB) (id : Nat) (newStatus : OrderStatus)
    (now : ℤ) (freshRowId : Nat) : Option String × DB :=
  match findOrder db id with
  | none => (some "Failed to update status", db)
  | some o =>
    let o' := { o with status := newStatus }
    let db1 := setOrderWith db id (fun x => { x with status := newStatus })
    if newStatus = .CONFIRMED then
      match db1.docs.find? (fun d => d.sourceOrderId == id) with
      | some _ => (none, db1)
      | none =>
        (none, { db1 with
          docs := db1.docs ++
            [mkDerivedDoc freshRowId "INV" .POSTED o' now
              (db1.docs.map (fun d => d.docNumber))] })
    else (none, db1)

/-- `POST /api/vendor/orders/[id]/confirm` — only a `SENT` order may be
confirmed; on success the status becomes `CONFIRMED` and, when no vendor
bill references the order yet, one is created with initial status
`DRAFT`.  (The authentication and vendor-ownership checks are I/O-layer
concerns outside the embedded core.) -/
def vendorConfirmPO (db : DB) (id : Nat) (now : ℤ) (freshRowId : Nat) :
    Option String × DB :=
  match findOrder db id with
  | none => (some "Order not found", db)
  | some o =>
    if o.status ≠ .SENT then
      (some "Only sent orders can be confirmed", db)
    else
      let o' := { o with status := .CONFIRMED }
      let db1 := setOrderWith db id (fun x => { x with status := .CONFIRMED })
      match db1.docs.find? (fun d => d.sourceOrderId == id) with
      | some _ => (none, db1)
      | none =>
        (none, { db1 with
          docs := db1.docs ++
            [mkDerivedDoc freshRowId "BILL" .DRAFT o' now
              (db1.docs.map (fun d => d.docNumber))] })

/-- The lines branch of `PUT /api/sales-orders/[id]` (and of the purchase
order PUT): delete all existing lines, recompute each line and the running
totals, and write lines plus header totals back in one update.  Only the
monetary recomputation is embedded here; the side effects the PUT shares
with PATCH (mail, derivation) live in `patchSalesStatus`. -/
def updateOrderLines (db : DB) (id : Nat) (ls : List LineInput) :
    Option String × DB :=
  match findOrder db id with
  | none => (some "Failed to update sales order", db)
  | some _ =>
    let r := accumLines ls
    (none, setOrderWith db id (fun x =>
      { x with lines := r.1, subtotal := r.2.1, taxAmount := r.2.2,
               totalAmount := r.2.1 + r.2.2 }))

/-- `POST /api/purchase-orders` — create an order whose header totals come
from the accumulating loop over the request lines. -/
def createOrder (db : DB) (id partnerId : Nat) (orderDate : ℤ)
    (expectedDate : Option ℤ) (st : OrderStatus) (ls : List LineInput) : DB :=
  let r := accumLines ls
  { db with orders := db.orders ++
      [{ id := id, partnerId := partnerId, status := st,
         orderDate := orderDate, expectedDate := expectedDate,
         subtotal := r.2.1, taxAmount := r.2.2,
         totalAmount := r.2.1 + r.2.2, lines := r.1 }] }

/-- `DELETE /api/sales-orders/[id]` — refuse when any invoice is linked;
otherwise set the status to `CANCELLED` (a soft cancel, no row removal). -/
def deleteSalesOrder (db : DB) (id : Nat) : Option String × DB :=
  if 0 < docCount db id then
    (some "Cannot delete sales order with linked invoices", db)
  else
    match findOrder db id with
    | none => (some "Failed to delete sales order", db)
    | some _ => (none, setOrderWith db id (fun x => { x with status := .CANCELLED }))

/-- `DELETE /api/purchase-orders/[id]` — identical shape, vendor-bill
wording. -/
def deletePurchaseOrder (db : DB) (id : Nat) : Option String × DB :=
  if 0 < docCount db id then
    (some "Cannot delete purchase order with linked bills", db)
  else
    match findOrder db id with
    | none => (some "Failed to delete purchase order", db)
    | some _ => (none, setOrderWith db id (fun x => { x with status := .CANCELLED }))

/-! ## Products (`src/app/api/products/route.ts`, `.../products/[id]/route.ts`) -/

structure Product where
  id : Nat
  purchasePrice : ℚ
  salePrice : ℚ
deriving DecidableEq, Repr

/-- `POST /api/products` — reject when `body.salePrice < body.purchasePrice`,
otherwise insert the row. -/
def productPost (ps : List Product) (newId : Nat) (purchasePrice salePrice : ℚ) :
    Option String × List Product :=
  if salePrice < purchasePrice then
    (some "Sale Price cannot be less than Purchase Price", ps)
  else
    (none, ps ++ [{ id := newId, purchasePrice := purchasePrice, salePrice := salePrice }])

/-- The optional price fields of a `PUT /api/products/[id]` body
(`undefined` = absent). -/
structure ProductPutBody where
  purchasePrice : Option ℚ
  salePrice : Option ℚ
deriving DecidableEq, Repr

/-- `PUT /api/products/[id]` — the price check runs only when BOTH
`body.salePrice` and `body.purchasePrice` are present
(`body.salePrice !== undefined && body.purchasePrice !== undefined`);
the update then writes whichever price fields the body carries, keeping
the stored value for an absent one. -/
def productPut (ps : List Product) (id : Nat) (b : ProductPutBody) :
    Option String × List Product :=
  let rejected : Bool :=
    match b.salePrice, b.purchasePrice with
    | some s, some p => s < p
    | _, _ => false
  if rejected then
    (some "Sale Price cannot be less than Purchase Price", ps)
  else if (ps.find? (fun x => x.id == id)).isSome then
    (none, ps.map (fun x =>
      if x.id == id then
        { x with purchasePrice := b.purchasePrice.getD x.purchasePrice,
                 salePrice := b.salePrice.getD x.salePrice }
      else x))
  else (some "Failed to update product", ps)

/-! ## Payment ledger

The repository's `/api/payments` route handler is not among the source
files here; only its dashboard caller (`src/app/dashboard/payments/page.tsx`)
is.  The ledger below is therefore modelled from the specification. -/

structure Payment where
  docId : Nat
  amount : ℚ
deriving DecidableEq, Repr

structure PayLedger where
  docs : List DerivedDoc
  payments : List Payment
deriving DecidableEq, Repr

/-- Modelled from the spec: `recordPayment` (§4.5) — the `/api/payments`
POST handler is absent from the provided sources.  Preconditions:
`amount > 0`, the referenced invoice/bill exists and is not CANCELLED,
`amount <= totalAmount - paidAmount` (reject with "exceeds amount due"
otherwise); on success, insert the Payment row and increment the target
document's `paidAmount` by `amount` in one atomic transaction. -/
def recordPayment (st : PayLedger) (docId : Nat) (amount : ℚ) :
    Option String × PayLedger :=
  match st.docs.find? (fun d => d.rowId == docId) with
  | none => (some "Document not found", st)
  | some d =>
    if ¬ 0 < amount then (some "Payment amount must be positive", st)
    else if d.status = .CANCELLED then (some "Document is cancelled", st)
    else if d.totalAmount - d.paidAmount < amount then
      (some "Payment exceeds amount due", st)
    else
      (none,
        { docs := st.docs.map (fun x =>
            if x.rowId == docId then { x with paidAmount := x.paidAmount + amount } else x)
          payments := st.payments ++ [{ docId := docId, amount := amount }] })

/-- Sum of the recorded payments targeting one document. -/
def paymentsSum (st : PayLedger) (docId : Nat) : ℚ :=
  ((st.payments.filter (fun p => p.docId == docId)).map (fun p => p.amount)).sum

/-- The ledger's well-formedness: document row ids are distinct, each
document's `paidAmount` equals the sum of its recorded payments, and no
document is overpaid. -/
def LedgerInv (st : PayLedger) : Prop :=
  (st.docs.map (fun d => d.rowId)).Nodup ∧
  ∀ d ∈ st.docs, paymentsSum st d.rowId = d.paidAmount ∧ d.paidAmount ≤ d.totalAmount

/-! ## Auto-analytical rule engine

`applyAutoAnalyticalToLines` is imported from `@/lib/auto-analytical`,
which is not among the provided source files; the resolver below is
modelled from the specification (§4.2). -/

inductive RuleLifecycle where
  | NEW | CONFIRMED | ARCHIVED
deriving DecidableEq, Repr

def RuleLifecycle.isConfirmed : RuleLifecycle → Bool
  | .CONFIRMED => true
  | _ => false

structure RuleR where
  id : Nat
  autoApply : Bool
  status : RuleLifecycle
  partnerId : Option Nat
  partnerTag : Option String
  productCategoryId : Option Nat
  productId : Option Nat
  analyticalAccountId : Nat
deriving DecidableEq, Repr

/-- The attributes of one order line (plus order counterparty) the rule
engine matches against. -/
structure LineCtx where
  analyticalAccountId : Option Nat
  partnerId : Nat
  partnerTag : Option String
  productId : Nat
  productCategoryId : Option Nat
  productDefaultAnalytical : Option Nat
deriving DecidableEq, Repr

/-- Specificity = number of non-null matching fields on the rule. -/
def specificity (r : RuleR) : Nat :=
  (if r.partnerId.isSome then 1 else 0) +
  (if r.partnerTag.isSome then 1 else 0) +
  (if r.productCategoryId.isSome then 1 else 0) +
  (if r.productId.isSome then 1 else 0)

/-- Every non-null rule field equals the corresponding line/order
attribute. -/
def ruleMatches (r : RuleR) (c : LineCtx) : Bool :=
  (match r.partnerId with
   | none => true
   | some p => p == c.partnerId) &&
  (match r.partnerTag, c.partnerTag with
   | none, _ => true
   | some t, some t2 => t == t2
   | some _, none => false) &&
  (match r.productCategoryId, c.productCategoryId with
   | none, _ => true
   | some g, some g2 => g == g2
   | some _, none => false) &&
  (match r.productId with
   | none => true
   | some p => p == c.productId)

/-- Highest-specificity rule of a candidate list; on equal specificity the
earlier rule wins (the spec leaves the tie-break open; the model fixes
list order as the deterministic choice). -/
def pickBest : List RuleR → Option RuleR
  | [] => none
  | r :: rest =>
    match pickBest rest with
    | none => some r
    | some b => if specificity b < specificity r then some r else some b

/-- Candidate rules for a line: `autoApply = true`, lifecycle status
CONFIRMED, every non-null field matching. -/
def candidateRules (rules : List RuleR) (c : LineCtx) : List RuleR :=
  rules.filter (fun r => r.autoApply && r.status.isConfirmed && ruleMatches r c)

/-- Modelled from the spec: `resolveAnalyticalAccount` (§4.2) — the
`@/lib/auto-analytical` module is absent from the provided sources.  An
explicit analyticalAccountId on the line passes through unchanged;
otherwise the highest-specificity confirmed auto-apply rule whose non-null
fields all match decides; with no matching rule the product's own default
analytical account is used, else null. -/
def resolveAnalyticalAccount (rules : List RuleR) (c : LineCtx) : Option Nat :=
  match c.analyticalAccountId with
  | some a => some a
  | none =>
    match pickBest (candidateRules rules c) with
    | some r => some r.analyticalAccountId
    | none => c.productDefaultAnalytical

/-! ## The spec's rounding rule

Stated from the specification's words (§4.3), for comparison with the
computation the code actually performs: "line tax =
round(quantity×unitPrice×taxRate/100) using a single consistent rounding
rule (half-up) applied once per line". -/

/-- Half-up rounding of a rational to an integer. -/
def specRoundHalfUp (x : ℚ) : ℤ := ⌊x + 1 / 2⌋

/-! ## Helper lemmas -/

/-- `accumLines` with a generalized accumulator. -/
theorem accumLines_go (ls : List LineInput) (L0 : List ComputedLine) (s0 t0 : ℚ) :
    ls.foldl
      (fun acc l =>
        let c := computeLine l
        (acc.1 ++ [c], acc.2.1 + l.quantity * l.unitPrice, acc.2.2 + c.taxAmount))
      (L0, s0, t0)
    = (L0 ++ ls.map computeLine,
       s0 + (ls.map (fun l => l.quantity * l.unitPrice)).sum,
       t0 + (ls.map (fun l => (computeLine l).taxAmount)).sum) := by
  induction ls generalizing L0 s0 t0 with
  | nil => simp
  | cons a as ih =>
    simp only [List.foldl_cons, List.map_cons, List.sum_cons, ih]
    refine Prod.ext ?_ (Prod.ext ?_ ?_) <;> simp [add_assoc]

/-- The accumulating loop equals the mapped lines with their summed
components. -/
theorem accumLines_eq (ls : List LineInput) :
    accumLines ls
      = (ls.map computeLine,
         (ls.map (fun l => l.quantity * l.unitPrice)).sum,
         (ls.map (fun l => (computeLine l).taxAmount)).sum) := by
  have h := accumLines_go ls [] 0 0
  simpa [accumLines] using h

/-- `prisma.X.update({where: {id}})` commutes with `find?` on the id when
the update preserves the id. -/
theorem find?_map_ite (l : List Order) (id : Nat) (g : Order → Order)
    (hg : ∀ x, (g x).id = x.id) :
    (l.map (fun x => if x.id == id then g x else x)).find? (fun x => x.id == id)
      = (l.find? (fun x => x.id == id)).map g := by
  induction l with
  | nil => simp
  | cons a as ih =>
    by_cases h : a.id = id
    · simp [List.find?_cons, h, hg]
    · simpa [List.find?_cons, h, -List.find?_map] using ih

theorem findOrder_setOrderWith (db : DB) (id : Nat) (g : Order → Order)
    (hg : ∀ x, (g x).id = x.id) :
    findOrder (setOrderWith db id g) id = (findOrder db id).map g := by
  simpa [findOrder, setOrderWith] using find?_map_ite db.orders id g hg

/-- The header-totals invariant of one order row. -/
def headerOk (o : Order) : Prop :=
  o.subtotal = (o.lines.map (fun c => c.quantity * c.unitPrice)).sum ∧
  o.taxAmount = (o.lines.map (fun c => c.taxAmount)).sum ∧
  o.totalAmount = o.subtotal + o.taxAmount ∧
  o.totalAmount = (o.lines.map (fun c => c.lineTotal)).sum ∧
  ∀ c ∈ o.lines,
    c.taxAmount = c.quantity * c.unitPrice * (c.taxRate / 100) ∧
    c.lineTotal = c.quantity * c.unitPrice + c.taxAmount

/-- Any order whose lines are `ls.map computeLine` and whose header fields
come from `accumLines` satisfies the totals invariant. -/
theorem headerOk_of_accum (o : Order) (ls : List LineInput)
    (hl : o.lines = ls.map computeLine)
    (hs : o.subtotal = (accumLines ls).2.1)
    (ht : o.taxAmount = (accumLines ls).2.2)
    (htot : o.totalAmount = (accumLines ls).2.1 + (accumLines ls).2.2) : headerOk o := by
  have hacc := accumLines_eq ls
  have hsub : o.subtotal = (ls.map (fun l => l.quantity * l.unitPrice)).sum := by
    rw [hs, hacc]
  have htax : o.taxAmount = (ls.map (fun l => (computeLine l).taxAmount)).sum := by
    rw [ht, hacc]
  have hq : ∀ l : LineInput, (computeLine l).quantity * (computeLine l).unitPrice
      = l.quantity * l.unitPrice := fun l => rfl
  refine ⟨?_, ?_, ?_, ?_, ?_⟩
  · rw [hsub, hl, List.map_map]
    rfl
  · rw [htax, hl, List.map_map]
    rfl
  · rw [htot, hs, ht]
  · have hfun : ((fun c : ComputedLine => c.lineTotal) ∘ computeLine)
        = fun l : LineInput => l.quantity * l.unitPrice + (computeLine l).taxAmount := by
      funext l
      rfl
    calc o.totalAmount
        = (ls.map (fun l => l.quantity * l.unitPrice)).sum
          + (ls.map (fun l => (computeLine l).taxAmount)).sum := by
          rw [htot, hacc]
      _ = (o.lines.map (fun c => c.lineTotal)).sum := by
          rw [hl, List.map_map, hfun, List.sum_map_add]
  · intro c hc
    rw [hl] at hc
    rcases List.mem_map.mp hc with ⟨l, _, rfl⟩
    exact ⟨rfl, rfl⟩

theorem accumLines_fst (ls : List LineInput) :
    (accumLines ls).1 = ls.map computeLine := by
  rw [accumLines_eq]

/-! ## Claim theorems -/

/-- C2: After creating an order and after any line update, the header
totals equal the sums over its lines: subtotal = Σ quantity·unitPrice,
header taxAmount = Σ line taxAmount, totalAmount = subtotal + taxAmount
= Σ lineTotal, where each line has
lineTotal = quantity·unitPrice + taxAmount and
taxAmount = quantity·unitPrice·taxRate/100. -/
theorem createAndUpdate_header_totals (db : DB) (id partnerId : Nat)
    (orderDate : ℤ) (expectedDate : Option ℤ) (st : OrderStatus)
    (ls : List LineInput) :
    (∃ o, (createOrder db id partnerId orderDate expectedDate st ls).orders
        = db.orders ++ [o] ∧ headerOk o) ∧
    (∀ o, findOrder db id = some o →
      ∃ o', findOrder (updateOrderLines db id ls).2 id = some o' ∧ headerOk o') := by
  constructor
  · exact ⟨_, rfl, headerOk_of_accum _ ls (accumLines_fst ls) rfl rfl rfl⟩
  · intro o ho
    have hres : (updateOrderLines db id ls).2
        = setOrderWith db id (fun x =>
            { x with lines := (accumLines ls).1, subtotal := (accumLines ls).2.1,
                     taxAmount := (accumLines ls).2.2,
                     totalAmount := (accumLines ls).2.1 + (accumLines ls).2.2 }) := by
      simp [updateOrderLines, ho]
    rw [hres, findOrder_setOrderWith db id (fun x =>
        { x with lines := (accumLines ls).1, subtotal := (accumLines ls).2.1,
                 taxAmount := (accumLines ls).2.2,
                 totalAmount := (accumLines ls).2.1 + (accumLines ls).2.2 })
      (fun x => rfl), ho, Option.map_some']
    exact ⟨_, rfl, headerOk_of_accum _ ls (accumLines_fst ls) rfl rfl rfl⟩

/-- Witness for `createAndUpdate_header_totals` at a concrete order and a
concrete two-line update. -/
theorem createAndUpdate_header_totals_witness :
    ∃ o', findOrder (updateOrderLines
        { orders := [{ id := 1, partnerId := 2, status := .DRAFT, orderDate := 0,
                       expectedDate := none, subtotal := 0, taxAmount := 0,
                       totalAmount := 0, lines := [] }], docs := [] }
        1
        [{ productId := 7, description := "chair", quantity := 2, unitPrice := 100,
           taxRate := 18, analyticalAccountId := none }]).2 1
      = some o' ∧ headerOk o' := by
  exact (createAndUpdate_header_totals
      { orders := [{ id := 1, partnerId := 2, status := .DRAFT, orderDate := 0,
                     expectedDate := none, subtotal := 0, taxAmount := 0,
                     totalAmount := 0, lines := [] }], docs := [] }
      1 2 0 none .DRAFT
      [{ productId := 7, description := "chair", quantity := 2, unitPrice := 100,
         taxRate := 18, analyticalAccountId := none }]).2
    { id := 1, partnerId := 2, status := .DRAFT, orderDate := 0,
      expectedDate := none, subtotal := 0, taxAmount := 0,
      totalAmount := 0, lines := [] }
    (by decide)

theorem docCount_setOrderWith (db : DB) (id : Nat) (g : Order → Order) (oid : Nat) :
    docCount (setOrderWith db id g) oid = docCount db oid := rfl

theorem docCount_append_one (db : DB) (d : DerivedDoc) (oid : Nat) :
    docCount { db with docs := db.docs ++ [d] } oid
      = docCount db oid + (if d.sourceOrderId == oid then 1 else 0) := by
  simp only [docCount, List.filter_append]
  cases h : (d.sourceOrderId == oid) <;> simp [List.filter, h]

theorem docCount_eq_zero_of_find?_none (db : DB) (oid : Nat)
    (h : db.docs.find? (fun d => d.sourceOrderId == oid) = none) :
    docCount db oid = 0 := by
  rw [List.find?_eq_none] at h
  simp only [docCount, List.length_eq_zero]
  rw [List.filter_eq_nil_iff]
  intro d hd
  simpa using h d hd

theorem find?_isSome_of_docCount_pos (db : DB) (oid : Nat)
    (h : 1 ≤ docCount db oid) :
    (db.docs.find? (fun d => d.sourceOrderId == oid)).isSome := by
  rw [List.find?_isSome]
  have hne : db.docs.filter (fun d => d.sourceOrderId == oid) ≠ [] := by
    intro hnil
    rw [docCount, hnil] at h
    simp at h
  rcases List.exists_mem_of_ne_nil _ hne with ⟨d, hd⟩
  rcases List.mem_filter.mp hd with ⟨hmem, hp⟩
  exact ⟨d, hmem, hp⟩

/-- C1: At most one derived document ever references an order as its
source: a second confirmation finds the existing invoice/bill and creates
no duplicate, so `count(derivedDocuments where sourceOrderId = X) ≤ 1` is
preserved by the sales-order PATCH confirmation and by the vendor
purchase-order confirmation; when a derived document already exists,
neither operation touches the derived-document table. -/
theorem confirm_at_most_one_derived (db : DB) (id : Nat) (now : ℤ) (rid : Nat)
    (hinv : ∀ oid, docCount db oid ≤ 1) :
    ((∀ oid, docCount (patchSalesStatus db id .CONFIRMED now rid).2 oid ≤ 1) ∧
      (1 ≤ docCount db id → (patchSalesStatus db id .CONFIRMED now rid).2.docs = db.docs)) ∧
    ((∀ oid, docCount (vendorConfirmPO db id now rid).2 oid ≤ 1) ∧
      (1 ≤ docCount db id → (vendorConfirmPO db id now rid).2.docs = db.docs)) := by
  have key : ∀ (db2 : DB) (pfx : String) (dst : DocStatus) (o : Order),
      o.id = id → db2.docs = db.docs →
      let res := match db2.docs.find? (fun d => d.sourceOrderId == id) with
        | some _ => (none, db2)
        | none =>
          (none, { db2 with docs := db2.docs ++
            [mkDerivedDoc rid pfx dst o now (db2.docs.map (fun d => d.docNumber))] })
      (∀ oid, docCount (res : Option String × DB).2 oid ≤ 1) ∧
      (1 ≤ docCount db id → (res : Option String × DB).2.docs = db.docs) := by
    intro db2 pfx dst o hoid hdocs
    cases hf : db2.docs.find? (fun d => d.sourceOrderId == id) with
    | some d =>
      refine ⟨?_, ?_⟩ <;> simp only [hf]
      · intro oid
        have : docCount db2 oid = docCount db oid := by
          simp [docCount, hdocs]
        rw [this]
        exact hinv oid
      · intro _
        exact hdocs
    | none =>
      have hzero : docCount db2 id = 0 := docCount_eq_zero_of_find?_none db2 id hf
      refine ⟨?_, ?_⟩ <;> simp only [hf]
      · intro oid
        rw [docCount_append_one]
        have hsrc : (mkDerivedDoc rid pfx dst o now
            (db2.docs.map (fun d => d.docNumber))).sourceOrderId = o.id := rfl
        by_cases hcase : o.id = oid
        · have hb : ((mkDerivedDoc rid pfx dst o now
              (db2.docs.map (fun d => d.docNumber))).sourceOrderId == oid) = true := by
            simp [hsrc, hcase]
          rw [hb]
          have : docCount db2 oid = 0 := by
            rw [← hcase, hoid]
            exact hzero
          simp [this]
        · have hb : ((mkDerivedDoc rid pfx dst o now
              (db2.docs.map (fun d => d.docNumber))).sourceOrderId == oid) = false := by
            simp [hsrc, hcase]
          rw [hb]
          have : docCount db2 oid = docCount db oid := by simp [docCount, hdocs]
          simp [this]
          exact hinv oid
      · intro hge
        exfalso
        have : docCount db2 id = docCount db id := by simp [docCount, hdocs]
        omega
  constructor
  · cases hfo : findOrder db id with
    | none =>
      constructor
      · intro oid
        simp only [patchSalesStatus, hfo]
        exact hinv oid
      · intro _
        simp only [patchSalesStatus, hfo]
    | some o =>
      have hoid : o.id = id := by
        have := List.find?_some hfo
        simpa using this
      have h := key (setOrderWith db id (fun x => { x with status := .CONFIRMED }))
        "INV" .POSTED { o with status := .CONFIRMED } hoid rfl
      constructor
      · intro oid
        have := h.1 oid
        simpa only [patchSalesStatus, hfo, if_pos rfl] using this
      · intro hge
        have := h.2 hge
        simpa only [patchSalesStatus, hfo, if_pos rfl] using this
  · cases hfo : findOrder db id with
    | none =>
      constructor
      · intro oid
        simp only [vendorConfirmPO, hfo]
        exact hinv oid
      · intro _
        simp only [vendorConfirmPO, hfo]
    | some o =>
      have hoid : o.id = id := by
        have := List.find?_some hfo
        simpa using this
      by_cases hst : o.status = .SENT
      · have hcond : ¬(o.status ≠ OrderStatus.SENT) := by simp [hst]
        have h := key (setOrderWith db id (fun x => { x with status := .CONFIRMED }))
          "BILL" .DRAFT { o with status := .CONFIRMED } hoid rfl
        constructor
        · intro oid
          have := h.1 oid
          simpa only [vendorConfirmPO, hfo, if_neg hcond] using this
        · intro hge
          have := h.2 hge
          simpa only [vendorConfirmPO, hfo, if_neg hcond] using this
      · have hcond : o.status ≠ OrderStatus.SENT := hst
        constructor
        · intro oid
          simp only [vendorConfirmPO, hfo, if_pos hcond]
          exact hinv oid
        · intro _
          simp only [vendorConfirmPO, hfo, if_pos hcond]

/-- Witness for `confirm_at_most_one_derived`: a concrete SENT order with
no derived document yet. -/
theorem confirm_at_most_one_derived_witness :
    docCount (patchSalesStatus
      { orders := [{ id := 1, partnerId := 2, status := .SENT, orderDate := 0,
                     expectedDate := none, subtotal := 200, taxAmount := 36,
                     totalAmount := 236, lines := [] }], docs := [] }
      1 .CONFIRMED 0 1).2 1 ≤ 1 :=
  ((confirm_at_most_one_derived
      { orders := [{ id := 1, partnerId := 2, status := .SENT, orderDate := 0,
                     expectedDate := none, subtotal := 200, taxAmount := 36,
                     totalAmount := 236, lines := [] }], docs := [] }
      1 0 1 (fun _ => Nat.zero_le 1)).1).1 1

/-- C3: Cancelling an order that already has a linked derived document
fails with the dependent-documents error and leaves every row unchanged;
cancellation succeeds only when no derived document references the order,
and then changes nothing but the order's status (to CANCELLED). -/
theorem cancel_blocked_by_derived (db : DB) (id : Nat) :
    (0 < docCount db id →
       deleteSalesOrder db id
         = (some "Cannot delete sales order with linked invoices", db) ∧
       deletePurchaseOrder db id
         = (some "Cannot delete purchase order with linked bills", db)) ∧
    ((deleteSalesOrder db id).1 = none →
       docCount db id = 0 ∧
       (deleteSalesOrder db id).2.docs = db.docs ∧
       (deleteSalesOrder db id).2.orders
         = db.orders.map (fun x =>
             if x.id == id then { x with status := .CANCELLED } else x)) ∧
    ((deletePurchaseOrder db id).1 = none →
       docCount db id = 0 ∧
       (deletePurchaseOrder db id).2.docs = db.docs ∧
       (deletePurchaseOrder db id).2.orders
         = db.orders.map (fun x =>
             if x.id == id then { x with status := .CANCELLED } else x)) := by
  by_cases hc : 0 < docCount db id
  · refine ⟨fun _ => ⟨?_, ?_⟩, fun hnone => ?_, fun hnone => ?_⟩
    · simp [deleteSalesOrder, hc]
    · simp [deletePurchaseOrder, hc]
    · exfalso
      rw [deleteSalesOrder, if_pos hc] at hnone
      simp at hnone
    · exfalso
      rw [deletePurchaseOrder, if_pos hc] at hnone
      simp at hnone
  · have hzero : docCount db id = 0 := Nat.eq_zero_of_not_pos hc
    refine ⟨fun hpos => absurd hpos hc, fun hnone => ?_, fun hnone => ?_⟩
    · cases hfo : findOrder db id with
      | none =>
        exfalso
        rw [deleteSalesOrder, if_neg hc, hfo] at hnone
        simp at hnone
      | some o =>
        refine ⟨hzero, ?_, ?_⟩ <;> simp [deleteSalesOrder, hc, hfo, setOrderWith]
    · cases hfo : findOrder db id with
      | none =>
        exfalso
        rw [deletePurchaseOrder, if_neg hc, hfo] at hnone
        simp at hnone
      | some o =>
        refine ⟨hzero, ?_, ?_⟩ <;> simp [deletePurchaseOrder, hc, hfo, setOrderWith]

/-- Witness for `cancel_blocked_by_derived`: a concrete order with a
linked derived document; cancellation is refused without touching rows. -/
theorem cancel_blocked_by_derived_witness :
    deleteSalesOrder
      { orders := [{ id := 1, partnerId := 2, status := .CONFIRMED, orderDate := 0,
                     expectedDate := none, subtotal := 0, taxAmount := 0,
                     totalAmount := 0, lines := [] }],
        docs := [{ rowId := 1, docNumber := "INV-00001", partnerId := 2,
                   sourceOrderId := 1, docDate := 0, dueDate := 2592000000,
                   status := .POSTED, subtotal := 0, taxAmount := 0,
                   totalAmount := 0, paidAmount := 0, lines := [] }] }
      1
    = (some "Cannot delete sales order with linked invoices",
       { orders := [{ id := 1, partnerId := 2, status := .CONFIRMED, orderDate := 0,
                      expectedDate := none, subtotal := 0, taxAmount := 0,
                      totalAmount := 0, lines := [] }],
         docs := [{ rowId := 1, docNumber := "INV-00001", partnerId := 2,
                    sourceOrderId := 1, docDate := 0, dueDate := 2592000000,
                    status := .POSTED, subtotal := 0, taxAmount := 0,
                    totalAmount := 0, paidAmount := 0, lines := [] }] }) :=
  ((cancel_blocked_by_derived
      { orders := [{ id := 1, partnerId := 2, status := .CONFIRMED, orderDate := 0,
                     expectedDate := none, subtotal := 0, taxAmount := 0,
                     totalAmount := 0, lines := [] }],
        docs := [{ rowId := 1, docNumber := "INV-00001", partnerId := 2,
                   sourceOrderId := 1, docDate := 0, dueDate := 2592000000,
                   status := .POSTED, subtotal := 0, taxAmount := 0,
                   totalAmount := 0, paidAmount := 0, lines := [] }] }
      1).1 (by decide)).1

/-- C4 counterexample: the sales-order PATCH endpoint confirms an order
whose current status is DRAFT — the operation succeeds (no error) and the
order jumps DRAFT → CONFIRMED, an edge outside the claimed
DRAFT → SENT → CONFIRMED graph, so a confirm operation does NOT succeed
only from SENT. -/
theorem confirm_from_draft_succeeds :
    ((patchSalesStatus
        { orders := [{ id := 1, partnerId := 2, status := .DRAFT, orderDate := 0,
                       expectedDate := none, subtotal := 200, taxAmount := 36,
                       totalAmount := 236, lines := [] }], docs := [] }
        1 .CONFIRMED 0 1).1 = none) ∧
    ((findOrder
        { orders := [{ id := 1, partnerId := 2, status := .DRAFT, orderDate := 0,
                       expectedDate := none, subtotal := 200, taxAmount := 36,
                       totalAmount := 236, lines := [] }], docs := [] }
        1).map (fun o => o.status) = some .DRAFT) ∧
    ((findOrder (patchSalesStatus
        { orders := [{ id := 1, partnerId := 2, status := .DRAFT, orderDate := 0,
                       expectedDate := none, subtotal := 200, taxAmount := 36,
                       totalAmount := 236, lines := [] }], docs := [] }
        1 .CONFIRMED 0 1).2 1).map (fun o => o.status) = some .CONFIRMED) := by
  decide

/-- C4 amended: the vendor confirm endpoint does enforce SENT → CONFIRMED
(it succeeds only when the order's current status is SENT), but the
admin sales-order PATCH endpoint performs no transition validation: for
an existing order it succeeds with ANY requested status from ANY current
status, so the DRAFT → SENT → CONFIRMED / → CANCELLED graph is not
enforced there. -/
theorem status_transitions_amended (db : DB) (id : Nat) (now : ℤ) (rid : Nat) :
    ((vendorConfirmPO db id now rid).1 = none →
      ∃ o, findOrder db id = some o ∧ o.status = .SENT) ∧
    (∀ st o, findOrder db id = some o →
      (patchSalesStatus db id st now rid).1 = none ∧
      findOrder (patchSalesStatus db id st now rid).2 id
        = some { o with status := st }) := by
  constructor
  · intro hnone
    cases hfo : findOrder db id with
    | none =>
      exfalso
      rw [vendorConfirmPO, hfo] at hnone
      simp at hnone
    | some o =>
      refine ⟨o, rfl, ?_⟩
      by_cases hst : o.status = .SENT
      · exact hst
      · exfalso
        simp [vendorConfirmPO, hfo, hst] at hnone
  · intro st o hfo
    have hfind : findOrder (setOrderWith db id (fun x => { x with status := st })) id
        = some { o with status := st } := by
      rw [findOrder_setOrderWith db id (fun x => { x with status := st }) (fun x => rfl),
        hfo, Option.map_some']
    have hkey : (patchSalesStatus db id st now rid).1 = none ∧
        (patchSalesStatus db id st now rid).2.orders
          = (setOrderWith db id (fun x => { x with status := st })).orders := by
      by_cases hconf : st = OrderStatus.CONFIRMED
      · subst hconf
        cases hf : (setOrderWith db id
            (fun x => { x with status := OrderStatus.CONFIRMED })).docs.find?
            (fun d => d.sourceOrderId == id) with
        | some d => simp [patchSalesStatus, hfo, hf]
        | none => simp [patchSalesStatus, hfo, hf]
      · simp [patchSalesStatus, hfo, hconf]
    refine ⟨hkey.1, ?_⟩
    rw [findOrder, hkey.2, ← findOrder, hfind]

/-- Witness for `status_transitions_amended`: the PATCH clause applied to
a concrete CANCELLED order being moved back to DRAFT (an edge far outside
the claimed graph) succeeds. -/
theorem status_transitions_amended_witness :
    (patchSalesStatus
        { orders := [{ id := 1, partnerId := 2, status := .CANCELLED, orderDate := 0,
                       expectedDate := none, subtotal := 0, taxAmount := 0,
                       totalAmount := 0, lines := [] }], docs := [] }
        1 .DRAFT 0 1).1 = none :=
  ((status_transitions_amended
      { orders := [{ id := 1, partnerId := 2, status := .CANCELLED, orderDate := 0,
                     expectedDate := none, subtotal := 0, taxAmount := 0,
                     totalAmount := 0, lines := [] }], docs := [] }
      1 0 1).2 .DRAFT
    { id := 1, partnerId := 2, status := .CANCELLED, orderDate := 0,
      expectedDate := none, subtotal := 0, taxAmount := 0,
      totalAmount := 0, lines := [] }
    (by decide)).1

/-- C5 counterexample: derived-document numbers are not obtained from the
atomic sequence counter.  With the `invoice` counter standing at
`nextNumber = 7` (the counter would issue `INV-00007`) while the
lexicographically last stored invoice number is `INV-00002`, the invoice
creation path generates `INV-00003` by scanning — a different identifier —
and the purchase-order route's first call, which passes the key
`purchase_order` (absent from `SEQUENCE_DEFAULTS`), yields `PURC-00001`
rather than `PO-00001`. -/
theorem invoiceNumber_not_from_sequence :
    genDocNumber "INV" ["INV-00002"] = "INV-00003" ∧
    (getNextSequence "invoice"
      (some { name := "invoice", pfx := "INV", nextNumber := 7, padding := 5 })).1
      = "INV-00007" ∧
    ("INV-00003" : String) ≠ "INV-00007" ∧
    (getNextSequence "purchase_order" none).1 = "PURC-00001" := by
  decide

/-- C5 amended: order numbers are obtained from the sequence counter —
on first use it is initialized at 1 (with the mapped default prefix and
padding, or the name's first four upper-cased characters and padding 5
for an unmapped key such as `purchase_order`) and each call formats
`prefix-zeroPad(n)` and increments the counter by one; invoice and
vendor-bill numbers are instead derived by scanning the lexicographically
last existing number and incrementing it, also formatted
`PREFIX-<five-digit zero-padded number>`. -/
theorem sequence_and_scan_numbering (name : String) (seq : Sequence)
    (pfx : String) (existing : List String) :
    ((getNextSequence name none).1
        = (defaultsFor name).1 ++ "-" ++ zeroPad 1 (defaultsFor name).2 ∧
      (getNextSequence name none).2.nextNumber = 2) ∧
    ((getNextSequence name (some seq)).1
        = seq.pfx ++ "-" ++ zeroPad seq.nextNumber seq.padding ∧
      (getNextSequence name (some seq)).2
        = { seq with nextNumber := seq.nextNumber + 1 }) ∧
    (∃ n, genDocNumber pfx existing = pfx ++ "-" ++ zeroPad n 5 ∧
      (existing = [] → n = 1)) := by
  refine ⟨⟨rfl, rfl⟩, ⟨?_, rfl⟩, ?_⟩
  · simp [getNextSequence]
  · refine ⟨_, rfl, ?_⟩
    intro h
    subst h
    rfl

/-- Witness for `sequence_and_scan_numbering`: the first vendor-bill
number generated over an empty bill table. -/
theorem sequence_and_scan_numbering_witness :
    genDocNumber "BILL" [] = "BILL" ++ "-" ++ zeroPad 1 5 := by
  have h := (sequence_and_scan_numbering "purchase_order"
    { name := "purchase_order", pfx := "PURC", nextNumber := 1, padding := 5 }
    "BILL" []).2.2
  rcases h with ⟨n, hn, hone⟩
  rw [hn, hone rfl]

/-- C6 counterexample: no half-up rounding is applied to line tax.  For
quantity 1, unitPrice 1/2, taxRate 18 the code stores tax 9/100, while
round-half-up of 1·(1/2)·18/100 is 0; the stored tax is the raw product,
not the rounded value. -/
theorem tax_not_rounded_counterexample :
    (computeLine { productId := 1, description := "", quantity := 1,
                   unitPrice := 1 / 2, taxRate := 18,
                   analyticalAccountId := none }).taxAmount = 9 / 100 ∧
    ((specRoundHalfUp ((1 : ℚ) * (1 / 2) * (18 / 100)) : ℤ) : ℚ) = 0 ∧
    ((9 : ℚ) / 100) ≠ ((0 : ℤ) : ℚ) := by
  refine ⟨?_, ?_, by norm_num⟩
  · show (1 : ℚ) * (1 / 2) * (18 / 100) = 9 / 100
    norm_num
  · have : specRoundHalfUp ((1 : ℚ) * (1 / 2) * (18 / 100)) = 0 := by
      rw [specRoundHalfUp]
      rw [Int.floor_eq_zero_iff]
      constructor <;> norm_num
    rw [this]
    norm_num

/-- C6 amended: line tax is the exact, unrounded value
quantity·unitPrice·taxRate/100 (computed on JavaScript numbers, not
decimals, with no rounding step), and the header totals are the exact
sums of these unrounded per-line values with no re-rounding. -/
theorem tax_unrounded_amended (l : LineInput) (ls : List LineInput) :
    (computeLine l).taxAmount = l.quantity * l.unitPrice * (l.taxRate / 100) ∧
    (computeLine l).lineTotal = l.quantity * l.unitPrice + (computeLine l).taxAmount ∧
    (accumLines ls).2.2 = ((accumLines ls).1.map (fun c => c.taxAmount)).sum ∧
    (accumLines ls).2.1 = ((accumLines ls).1.map (fun c => c.quantity * c.unitPrice)).sum := by
  refine ⟨rfl, rfl, ?_, ?_⟩
  · rw [accumLines_eq]
    show (ls.map (fun l => (computeLine l).taxAmount)).sum
      = ((ls.map computeLine).map (fun c => c.taxAmount)).sum
    rw [List.map_map]
    rfl
  · rw [accumLines_eq]
    show (ls.map (fun l => l.quantity * l.unitPrice)).sum
      = ((ls.map computeLine).map (fun c => c.quantity * c.unitPrice)).sum
    rw [List.map_map]
    rfl

/-- C7 counterexample: when the order carries no expectedDate, the
derived document's dueDate is the confirmation instant plus 30 days, not
orderDate + 30 days.  For an order with orderDate 0 confirmed at epoch-ms
864000000 (day 10) the bill is due at 3456000000 (day 40), while
orderDate + 30 days would be 2592000000 (day 30). -/
theorem dueDate_not_from_orderDate :
    (mkDerivedDoc 1 "INV" .POSTED
      { id := 1, partnerId := 2, status := .CONFIRMED, orderDate := 0,
        expectedDate := none, subtotal := 0, taxAmount := 0, totalAmount := 0,
        lines := [] } 864000000 []).dueDate = 3456000000 ∧
    (3456000000 : ℤ) ≠ 0 + 2592000000 := by
  exact ⟨rfl, by decide⟩

/-- C7 amended: the derived document copies subtotal, taxAmount and
totalAmount verbatim from the order header, copies every order line into
its own line list, starts with paidAmount 0, references the source order,
and has dueDate = the order's expectedDate when present, otherwise the
creation instant plus 30 days. -/
theorem derived_doc_construction (rid : Nat) (pfx : String) (st : DocStatus)
    (o : Order) (now : ℤ) (ex : List String) :
    (mkDerivedDoc rid pfx st o now ex).subtotal = o.subtotal ∧
    (mkDerivedDoc rid pfx st o now ex).taxAmount = o.taxAmount ∧
    (mkDerivedDoc rid pfx st o now ex).totalAmount = o.totalAmount ∧
    (mkDerivedDoc rid pfx st o now ex).lines = o.lines ∧
    (mkDerivedDoc rid pfx st o now ex).paidAmount = 0 ∧
    (mkDerivedDoc rid pfx st o now ex).sourceOrderId = o.id ∧
    (mkDerivedDoc rid pfx st o now ex).status = st ∧
    (∀ d, o.expectedDate = some d → (mkDerivedDoc rid pfx st o now ex).dueDate = d) ∧
    (o.expectedDate = none → (mkDerivedDoc rid pfx st o now ex).dueDate = now + thirtyDays) := by
  refine ⟨rfl, rfl, rfl, rfl, rfl, rfl, rfl, ?_, ?_⟩
  · intro d hd
    simp [mkDerivedDoc, hd]
  · intro hd
    simp [mkDerivedDoc, hd]

/-- Witness for `derived_doc_construction`: an order with a concrete
expectedDate yields a document due exactly then. -/
theorem derived_doc_construction_witness :
    (mkDerivedDoc 1 "INV" .POSTED
      { id := 1, partnerId := 2, status := .CONFIRMED, orderDate := 0,
        expectedDate := some 1000, subtotal := 0, taxAmount := 0,
        totalAmount := 0, lines := [] } 5 []).dueDate = 1000 :=
  (derived_doc_construction 1 "INV" .POSTED
    { id := 1, partnerId := 2, status := .CONFIRMED, orderDate := 0,
      expectedDate := some 1000, subtotal := 0, taxAmount := 0,
      totalAmount := 0, lines := [] } 5 []).2.2.2.2.2.2.2.1 1000 rfl

theorem paymentsSum_append_one (D : List DerivedDoc) (P : List Payment)
    (p : Payment) (oid : Nat) :
    paymentsSum { docs := D, payments := P ++ [p] } oid
      = paymentsSum { docs := D, payments := P } oid
        + (if p.docId == oid then p.amount else 0) := by
  simp only [paymentsSum, List.filter_append]
  cases h : (p.docId == oid) <;> simp [List.filter, h]

theorem paymentsSum_docs_irrel (D D' : List DerivedDoc) (P : List Payment) (oid : Nat) :
    paymentsSum { docs := D, payments := P } oid
      = paymentsSum { docs := D', payments := P } oid := rfl

/-- Two documents of a ledger with distinct row ids and the same row id
are equal. -/
theorem doc_unique (l : List DerivedDoc)
    (hnd : (l.map (fun d => d.rowId)).Nodup)
    (d1 d2 : DerivedDoc) (h1 : d1 ∈ l) (h2 : d2 ∈ l)
    (h : d1.rowId = d2.rowId) : d1 = d2 :=
  List.inj_on_of_nodup_map hnd h1 h2 h

/-- C8 (spec-modelled): recordPayment succeeds only when amount > 0, the
referenced document exists and is not CANCELLED, and
amount ≤ totalAmount − paidAmount; every rejection leaves the ledger
unchanged; success inserts the payment and increments the document's
paidAmount, preserving the ledger invariant, so the sum of recorded
payments never exceeds totalAmount, and a further positive payment on a
fully paid (non-cancelled) document is rejected with the
exceeds-amount-due error. -/
theorem recordPayment_sound (st : PayLedger) (docId : Nat) (amount : ℚ)
    (hInv : LedgerInv st) :
    LedgerInv (recordPayment st docId amount).2 ∧
    ((recordPayment st docId amount).1.isSome →
      (recordPayment st docId amount).2 = st) ∧
    ((recordPayment st docId amount).1 = none →
      0 < amount ∧ ∃ d ∈ st.docs, d.rowId = docId ∧ d.status ≠ .CANCELLED ∧
        amount ≤ d.totalAmount - d.paidAmount) ∧
    (∀ d ∈ st.docs, d.rowId = docId → d.status ≠ .CANCELLED →
      d.totalAmount ≤ d.paidAmount → 0 < amount →
      (recordPayment st docId amount).1 = some "Payment exceeds amount due") ∧
    (∀ d ∈ (recordPayment st docId amount).2.docs,
      paymentsSum (recordPayment st docId amount).2 d.rowId ≤ d.totalAmount) := by
  have final : ∀ res : Option String × PayLedger,
      res = recordPayment st docId amount → LedgerInv res.2 →
      ∀ d ∈ res.2.docs, paymentsSum res.2 d.rowId ≤ d.totalAmount := by
    intro res _ hres d hd
    have h := hres.2 d hd
    rw [h.1]
    exact h.2
  cases hf : st.docs.find? (fun d => d.rowId == docId) with
  | none =>
    have herr : recordPayment st docId amount = (some "Document not found", st) := by
      rw [recordPayment, hf]
    rw [herr]
    refine ⟨hInv, fun _ => rfl, by simp, ?_, final _ herr.symm hInv⟩
    intro d hd hdid _ _ _
    exfalso
    have := List.find?_eq_none.mp hf d hd
    simp [hdid] at this
  | some d0 =>
    have hid0 : d0.rowId = docId := by
      have := List.find?_some hf
      simpa using this
    have hmem0 : d0 ∈ st.docs := List.mem_of_find?_eq_some hf
    by_cases hpos : 0 < amount
    · by_cases hcanc : d0.status = DocStatus.CANCELLED
      · have herr : recordPayment st docId amount = (some "Document is cancelled", st) := by
          simp [recordPayment, hf, hpos, hcanc]
        rw [herr]
        refine ⟨hInv, fun _ => rfl, by simp, ?_, final _ herr.symm hInv⟩
        intro d hd hdid hdnc _ _
        exfalso
        exact hdnc (by rw [doc_unique st.docs hInv.1 d d0 hd hmem0 (by rw [hdid, hid0])]; exact hcanc)
      · by_cases hexc : d0.totalAmount - d0.paidAmount < amount
        · have herr : recordPayment st docId amount
              = (some "Payment exceeds amount due", st) := by
            simp [recordPayment, hf, hpos, hcanc, hexc]
          rw [herr]
          exact ⟨hInv, fun _ => rfl, by simp, fun _ _ _ _ _ _ => rfl,
            final _ herr.symm hInv⟩
        · -- success
          have hok : recordPayment st docId amount
              = (none,
                 { docs := st.docs.map (fun x =>
                     if x.rowId == docId then
                       { x with paidAmount := x.paidAmount + amount } else x)
                   payments := st.payments ++ [{ docId := docId, amount := amount }] }) := by
            simp [recordPayment, hf, hpos, hcanc, hexc]
          have hle : amount ≤ d0.totalAmount - d0.paidAmount := le_of_not_lt hexc
          have hnd' : ((st.docs.map (fun x =>
              if x.rowId == docId then
                { x with paidAmount := x.paidAmount + amount } else x)).map
              (fun d => d.rowId)).Nodup := by
            rw [List.map_map]
            have : ((fun d : DerivedDoc => d.rowId) ∘ (fun x =>
                if x.rowId == docId then
                  { x with paidAmount := x.paidAmount + amount } else x))
                = fun d : DerivedDoc => d.rowId := by
              funext x
              by_cases h : (x.rowId == docId) = true <;> simp [Function.comp, h]
            rw [this]
            exact hInv.1
          have hInv' : LedgerInv (recordPayment st docId amount).2 := by
            rw [hok]
            refine ⟨hnd', ?_⟩
            intro d' hd'
            rcases List.mem_map.mp hd' with ⟨d, hdmem, rfl⟩
            by_cases hcase : (d.rowId == docId) = true
            · have hdeq : d = d0 :=
                doc_unique st.docs hInv.1 d d0 hdmem hmem0
                  (by rw [hid0]; simpa using hcase)
              subst hdeq
              rw [if_pos hcase]
              have hsum := (hInv.2 d hdmem).1
              constructor
              · show paymentsSum _ d.rowId = d.paidAmount + amount
                rw [paymentsSum_append_one]
                have hdocid : (({ docId := docId, amount := amount } : Payment).docId
                    == d.rowId) = true := by
                  simp [hid0]
                rw [if_pos hdocid, paymentsSum_docs_irrel _ st.docs]
                have : paymentsSum st d.rowId = d.paidAmount := hsum
                rw [show ({ docs := st.docs, payments := st.payments } : PayLedger) = st
                  from rfl, this]
              · show d.paidAmount + amount ≤ d.totalAmount
                linarith
            · rw [if_neg hcase]
              have hne : d.rowId ≠ docId := by simpa using hcase
              have hsum := hInv.2 d hdmem
              constructor
              · rw [paymentsSum_append_one]
                have hdocid : (({ docId := docId, amount := amount } : Payment).docId
                    == d.rowId) = false := by
                  simp
                  exact fun h => hne h.symm
                rw [if_neg (by simp [hdocid]), paymentsSum_docs_irrel _ st.docs]
                rw [show ({ docs := st.docs, payments := st.payments } : PayLedger) = st
                  from rfl, hsum.1]
                ring
              · exact hsum.2
          refine ⟨hInv', ?_, ?_, ?_, final _ rfl hInv'⟩
          · rw [hok]
            intro hsome
            simp at hsome
          · intro _
            exact ⟨hpos, d0, hmem0, hid0, hcanc, hle⟩
          · intro d hd hdid hdnc hfull hpos'
            exfalso
            have hdeq : d = d0 :=
              doc_unique st.docs hInv.1 d d0 hd hmem0 (by rw [hdid, hid0])
            subst hdeq
            linarith
    · have herr : recordPayment st docId amount
          = (some "Payment amount must be positive", st) := by
        simp [recordPayment, hf, hpos]
      rw [herr]
      exact ⟨hInv, fun _ => rfl, by simp, fun _ _ _ _ _ hp => absurd hp hpos,
        final _ herr.symm hInv⟩

/-- Witness for `recordPayment_sound`: a fully paid vendor bill
(totalAmount 236, paidAmount 236 backed by one recorded payment of 236)
rejects a further payment of 10 with the exceeds-amount-due error. -/
theorem recordPayment_sound_witness :
    (recordPayment
      { docs := [{ rowId := 1, docNumber := "BILL-00001", partnerId := 2,
                   sourceOrderId := 1, docDate := 0, dueDate := 2592000000,
                   status := .POSTED, subtotal := 200, taxAmount := 36,
                   totalAmount := 236, paidAmount := 236, lines := [] }],
        payments := [{ docId := 1, amount := 236 }] }
      1 10).1 = some "Payment exceeds amount due" :=
  (recordPayment_sound
      { docs := [{ rowId := 1, docNumber := "BILL-00001", partnerId := 2,
                   sourceOrderId := 1, docDate := 0, dueDate := 2592000000,
                   status := .POSTED, subtotal := 200, taxAmount := 36,
                   totalAmount := 236, paidAmount := 236, lines := [] }],
        payments := [{ docId := 1, amount := 236 }] }
      1 10
      ⟨by decide, by
        intro d hd
        simp only [List.mem_singleton] at hd
        subst hd
        refine ⟨?_, by norm_num⟩
        simp [paymentsSum, List.filter]⟩).2.2.2.1
    { rowId := 1, docNumber := "BILL-00001", partnerId := 2,
      sourceOrderId := 1, docDate := 0, dueDate := 2592000000,
      status := .POSTED, subtotal := 200, taxAmount := 36,
      totalAmount := 236, paidAmount := 236, lines := [] }
    (by decide) rfl (by decide) (by norm_num) (by norm_num)

theorem pickBest_ne_none (x : RuleR) (xs : List RuleR) :
    pickBest (x :: xs) ≠ none := by
  rw [pickBest]
  cases pickBest xs with
  | none => simp
  | some b =>
    dsimp only
    split <;> simp

/-- The rule `pickBest` returns belongs to the list and has maximal
specificity. -/
theorem pickBest_max (l : List RuleR) (r : RuleR) (hr : pickBest l = some r) :
    r ∈ l ∧ ∀ r' ∈ l, specificity r' ≤ specificity r := by
  induction l generalizing r with
  | nil => simp [pickBest] at hr
  | cons a as ih =>
    rw [pickBest] at hr
    cases hb : pickBest as with
    | none =>
      rw [hb] at hr
      cases as with
      | nil =>
        cases hr
        refine ⟨List.mem_singleton_self a, ?_⟩
        intro r' hr'
        rw [List.mem_singleton] at hr'
        subst hr'
        exact le_refl _
      | cons x xs => exact absurd hb (pickBest_ne_none x xs)
    | some b =>
      rw [hb] at hr
      dsimp only at hr
      rcases ih b hb with ⟨hbmem, hbmax⟩
      by_cases hlt : specificity b < specificity a
      · rw [if_pos hlt] at hr
        cases hr
        refine ⟨List.mem_cons_self a as, ?_⟩
        intro r' hr'
        rcases List.mem_cons.mp hr' with h | h
        · subst h
          exact le_refl _
        · exact le_of_lt (lt_of_le_of_lt (hbmax r' h) hlt)
      · rw [if_neg hlt] at hr
        cases hr
        refine ⟨List.mem_cons_of_mem a hbmem, ?_⟩
        intro r' hr'
        rcases List.mem_cons.mp hr' with h | h
        · subst h
          exact le_of_not_lt hlt
        · exact hbmax r' h

/-- C9 (spec-modelled): resolveAnalyticalAccount passes an explicit
analyticalAccountId through unchanged; otherwise, among the auto-apply
CONFIRMED rules whose every non-null field matches, it selects one of
maximal specificity (count of non-null fields) — so a rule matching both
productCategoryId and partnerId beats a rule matching only
productCategoryId — and with no matching rule it falls back to the
product's own default analytical account (null when absent). -/
theorem resolveAnalyticalAccount_spec (rules : List RuleR) (c : LineCtx) :
    (∀ a, c.analyticalAccountId = some a →
      resolveAnalyticalAccount rules c = some a) ∧
    (c.analyticalAccountId = none →
      (candidateRules rules c = [] →
        resolveAnalyticalAccount rules c = c.productDefaultAnalytical) ∧
      (candidateRules rules c ≠ [] →
        ∃ b ∈ candidateRules rules c,
          resolveAnalyticalAccount rules c = some b.analyticalAccountId ∧
          ∀ r' ∈ candidateRules rules c, specificity r' ≤ specificity b)) := by
  constructor
  · intro a ha
    simp [resolveAnalyticalAccount, ha]
  · intro hnone
    constructor
    · intro hcand
      simp [resolveAnalyticalAccount, hnone, hcand, pickBest]
    · intro hne
      cases hb : pickBest (candidateRules rules c) with
      | none =>
        exfalso
        cases hcl : candidateRules rules c with
        | nil => exact hne hcl
        | cons x xs =>
          rw [hcl] at hb
          exact pickBest_ne_none x xs hb
      | some b =>
        rcases pickBest_max _ b hb with ⟨hmem, hmax⟩
        exact ⟨b, hmem, by simp [resolveAnalyticalAccount, hnone, hb], hmax⟩

/-- Witness for `resolveAnalyticalAccount_spec`: the spec's scenario —
rule A matches only productCategoryId 5 (specificity 1, account 100),
rule B matches productCategoryId 5 and partnerId 9 (specificity 2,
account 200); a line with category 5 and counterparty 9 resolves to B's
account, and a line carrying an explicit account 77 passes through. -/
theorem resolveAnalyticalAccount_spec_witness :
    resolveAnalyticalAccount
      [{ id := 1, autoApply := true, status := .CONFIRMED, partnerId := none,
         partnerTag := none, productCategoryId := some 5, productId := none,
         analyticalAccountId := 100 },
       { id := 2, autoApply := true, status := .CONFIRMED, partnerId := some 9,
         partnerTag := none, productCategoryId := some 5, productId := none,
         analyticalAccountId := 200 }]
      { analyticalAccountId := none, partnerId := 9, partnerTag := none,
        productId := 3, productCategoryId := some 5,
        productDefaultAnalytical := none }
      = some 200 ∧
    resolveAnalyticalAccount []
      { analyticalAccountId := some 77, partnerId := 9, partnerTag := none,
        productId := 3, productCategoryId := some 5,
        productDefaultAnalytical := none }
      = some 77 := by
  constructor
  · decide
  · exact (resolveAnalyticalAccount_spec []
      { analyticalAccountId := some 77, partnerId := 9, partnerTag := none,
        productId := 3, productCategoryId := some 5,
        productDefaultAnalytical := none }).1 77 rfl

/-- C10 counterexample: a partial product update that supplies only a new
salePrice bypasses the price check.  Starting from a product with
purchasePrice 100 and salePrice 150, a PUT body carrying only
salePrice 50 succeeds and leaves the row with salePrice 50 <
purchasePrice 100, so the invariant does not hold after every update. -/
theorem partial_update_breaks_price_invariant :
    (productPut [{ id := 1, purchasePrice := 100, salePrice := 150 }] 1
      { purchasePrice := none, salePrice := some 50 }).1 = none ∧
    (productPut [{ id := 1, purchasePrice := 100, salePrice := 150 }] 1
      { purchasePrice := none, salePrice := some 50 }).2
      = [{ id := 1, purchasePrice := 100, salePrice := 50 }] ∧
    ((50 : ℚ) < 100) := by
  refine ⟨rfl, rfl, by norm_num⟩

/-- C10 amended: product creation rejects salePrice < purchasePrice, and
a product update rejects only when BOTH prices are supplied in the
request body and the supplied salePrice is below the supplied
purchasePrice; a partial update supplying a single price is not checked
against the stored other price. -/
theorem price_guard_amended (ps : List Product) (id newId : Nat)
    (pp sp : ℚ) (b : ProductPutBody) :
    (sp < pp → productPost ps newId pp sp
        = (some "Sale Price cannot be less than Purchase Price", ps)) ∧
    ((productPost ps newId pp sp).1 = none →
      pp ≤ sp ∧ (productPost ps newId pp sp).2
        = ps ++ [{ id := newId, purchasePrice := pp, salePrice := sp }]) ∧
    (∀ s p, b.salePrice = some s → b.purchasePrice = some p → s < p →
      productPut ps id b
        = (some "Sale Price cannot be less than Purchase Price", ps)) := by
  refine ⟨?_, ?_, ?_⟩
  · intro h
    simp [productPost, h]
  · intro h
    by_cases hlt : sp < pp
    · rw [productPost, if_pos hlt] at h
      simp at h
    · exact ⟨le_of_not_lt hlt, by simp [productPost, hlt]⟩
  · intro s p hs hp hlt
    simp [productPut, hs, hp, hlt]

/-- Witness for `price_guard_amended`: creating a product with
salePrice 50 below purchasePrice 100 is rejected. -/
theorem price_guard_amended_witness :
    productPost [] 1 100 50
      = (some "Sale Price cannot be less than Purchase Price", []) :=
  (price_guard_amended [] 1 1 100 50
    { purchasePrice := none, salePrice := none }).1 (by norm_num)

end Shiv
